import Mathlib

/-!
# Verification of the event/booking persistence core

Shallow embedding of the data-validation-and-normalization core of the
event-listing application:

* `generateSlug` and the Event pre-save hook (`event.model.ts`):
  required-field checks, date normalization to `YYYY-MM-DD`, time
  validation against `^([01]\d|2[0-3]):([0-5]\d)$`, slug generation.
* The Booking pre-save hook (`booking.model.ts`): email validation and
  the referential-existence check against the Event store.
* The connection cache (`mongodb.ts` / `connectDB`).

Strings are modelled as Lean `String` (lists of characters); JavaScript's
`\s` character class and `String.prototype.trim` are modelled by the
`jsWhitespace` predicate below; `toLowerCase` is modelled on the ASCII
range (`asciiLower`), which is exact for every character that can survive
the slug filter `[^a-z0-9\s-]`.
-/

/-- The JavaScript `\s` character class (also the set trimmed by
`String.prototype.trim`): tab, line feed, vertical tab, form feed,
carriage return, space, NBSP, plus the Unicode space separators,
line/paragraph separators and the BOM. -/
def jsWhitespace (c : Char) : Bool :=
  c.toNat = 9 || c.toNat = 10 || c.toNat = 11 || c.toNat = 12 ||
  c.toNat = 13 || c.toNat = 32 || c.toNat = 160 || c.toNat = 0x1680 ||
  (0x2000 ≤ c.toNat && c.toNat ≤ 0x200A) || c.toNat = 0x2028 ||
  c.toNat = 0x2029 || c.toNat = 0x202F || c.toNat = 0x205F ||
  c.toNat = 0x3000 || c.toNat = 0xFEFF

/-- ASCII lower-case letter `a`-`z`. -/
def isAsciiLowerCh (c : Char) : Bool :=
  97 ≤ c.toNat && c.toNat ≤ 122

/-- ASCII digit `0`-`9`. -/
def isDigitCh (c : Char) : Bool :=
  48 ≤ c.toNat && c.toNat ≤ 57

/-- ASCII upper-case letter `A`-`Z`. -/
def isAsciiUpperCh (c : Char) : Bool :=
  65 ≤ c.toNat && c.toNat ≤ 90

/-- `String.prototype.toLowerCase`, modelled on the ASCII range: maps
`A`-`Z` to `a`-`z` and leaves every other character unchanged. -/
def asciiLower (c : Char) : Char :=
  if 65 ≤ c.toNat ∧ c.toNat ≤ 90 then Char.ofNat (c.toNat + 32) else c

/-- `String.prototype.trim` on a character list: drop `\s` characters
from both ends. -/
def trimList (l : List Char) : List Char :=
  ((l.dropWhile jsWhitespace).reverse.dropWhile jsWhitespace).reverse

/-- `String.prototype.trim`. -/
def trimJS (s : String) : String :=
  ⟨trimList s.data⟩

/-- The character class kept by the slug filter: the regex replace
`.replace(/[^a-z0-9\s-]/g, '')` removes every character outside
`[a-z0-9\s-]`, i.e. keeps exactly these. -/
def codeKeep (c : Char) : Bool :=
  isAsciiLowerCh c || isDigitCh c || jsWhitespace c || c = '-'

/-- The regex replace `.replace(/\s+/g, '-')`: each maximal run of `\s`
characters becomes a single hyphen. -/
def wsRunsToHyphen : List Char → List Char
  | [] => []
  | [c] => if jsWhitespace c then ['-'] else [c]
  | c1 :: c2 :: rest =>
      if jsWhitespace c1 then
        (if jsWhitespace c2 then wsRunsToHyphen (c2 :: rest)
         else '-' :: wsRunsToHyphen (c2 :: rest))
      else c1 :: wsRunsToHyphen (c2 :: rest)

/-- The regex replace of the pattern `-+` (global) by `'-'`: each
maximal run of hyphens becomes a single hyphen. -/
def collapseHyphens : List Char → List Char
  | [] => []
  | [c] => [c]
  | c1 :: c2 :: rest =>
      if c1 = '-' ∧ c2 = '-' then collapseHyphens (c2 :: rest)
      else c1 :: collapseHyphens (c2 :: rest)

/-- `generateSlug` from `event.model.ts`: trim, lower-case, remove the
characters outside `[a-z0-9\s-]`, replace each `\s+` run by `'-'`, then
collapse each `-+` run to `'-'`. -/
def generateSlug (title : String) : String :=
  ⟨collapseHyphens (wsRunsToHyphen
    (((trimList title.data).map asciiLower).filter codeKeep))⟩

/-- Leap-year rule of the proleptic Gregorian calendar (as used by the
JS `Date` object). -/
def isLeapYear (y : Nat) : Bool :=
  y % 4 = 0 && (y % 100 ≠ 0 || y % 400 = 0)

/-- Number of days in month `m` (1-12) of year `y`. -/
def daysInMonth (y m : Nat) : Nat :=
  if m = 2 then (if isLeapYear y then 29 else 28)
  else if m = 4 ∨ m = 6 ∨ m = 9 ∨ m = 11 then 30 else 31

/-- Numeric value of an ASCII digit character, `none` otherwise. -/
def digitVal? (c : Char) : Option Nat :=
  if 48 ≤ c.toNat ∧ c.toNat ≤ 57 then some (c.toNat - 48) else none

/-- Modelled from the spec: the date parsing performed by
`new Date(this.date)` is a platform primitive, not code of this
repository.  Following the spec ("Parse `date` as a calendar date; fail
with `ValidationError` if unparseable"), it is modelled as the ISO
format the spec and its examples use: a four-digit year, two-digit
month and two-digit day separated by hyphens (`YYYY-MM-DD`), validated
against the Gregorian calendar, optionally followed by a `T` and a time
suffix (the suffix and time-zone conversion are not modelled further).
Returns the (year, month, day) triple on success. -/
def jsParseDate (s : String) : Option (Nat × Nat × Nat) :=
  match s.data with
  | y1 :: y2 :: y3 :: y4 :: sep1 :: mo1 :: mo2 :: sep2 :: d1 :: d2 :: rest =>
    if sep1 = '-' ∧ sep2 = '-' ∧ (rest = [] ∨ rest.head? = some 'T') then
      match digitVal? y1, digitVal? y2, digitVal? y3, digitVal? y4,
            digitVal? mo1, digitVal? mo2, digitVal? d1, digitVal? d2 with
      | some a, some b, some c, some d, some m1, some m2, some e1, some e2 =>
        let y := a * 1000 + b * 100 + c * 10 + d
        let m := m1 * 10 + m2
        let dd := e1 * 10 + e2
        if 1 ≤ m ∧ m ≤ 12 ∧ 1 ≤ dd ∧ dd ≤ daysInMonth y m then
          some (y, m, dd)
        else none
      | _, _, _, _, _, _, _, _ => none
    else none
  | _ => none

/-- The ASCII digit character of `n % 10`. -/
def digitChar10 (n : Nat) : Char :=
  Char.ofNat (48 + n % 10)

/-- The date part of `toISOString()` for an in-range UTC date: the
fixed-width rendering `YYYY-MM-DD` (what `.split('T')[0]` keeps). -/
def renderDate (y m d : Nat) : String :=
  ⟨[digitChar10 (y / 1000), digitChar10 (y / 100), digitChar10 (y / 10),
    digitChar10 y, '-', digitChar10 (m / 10), digitChar10 m, '-',
    digitChar10 (d / 10), digitChar10 d]⟩

/-- Checks that a string is exactly ten characters of shape
`YYYY-MM-DD` (digits and hyphens in the right positions). -/
def isISODateShape (s : String) : Bool :=
  match s.data with
  | [a, b, c, d, h1, e, f, h2, g, h] =>
    isDigitCh a && isDigitCh b && isDigitCh c && isDigitCh d &&
    h1 = '-' && isDigitCh e && isDigitCh f && h2 = '-' &&
    isDigitCh g && isDigitCh h
  | _ => false

/-- The regex match `timeValue.match(pattern)` for the time pattern
anchored `([01]\d|2[0-3]):([0-5]\d)`: on success returns the two
captured groups (hours, minutes). -/
def timeMatch (s : String) : Option (String × String) :=
  match s.data with
  | [h1, h2, sep, m1, m2] =>
    if sep = ':' ∧
       (((h1 = '0' ∨ h1 = '1') ∧ (48 ≤ h2.toNat ∧ h2.toNat ≤ 57)) ∨
        (h1 = '2' ∧ (48 ≤ h2.toNat ∧ h2.toNat ≤ 51))) ∧
       (48 ≤ m1.toNat ∧ m1.toNat ≤ 53) ∧ (48 ≤ m2.toNat ∧ m2.toNat ≤ 57)
    then some (⟨[h1, h2]⟩, ⟨[m1, m2]⟩) else none
  | _ => none

/-- The Event document shape of `event.model.ts` (string attributes and
the two string-list attributes; `slug` is a `String` where the empty
string models an unset slug, matching the falsiness test `!this.slug`). -/
structure EventDoc where
  title : String
  slug : String
  description : String
  overview : String
  image : String
  venue : String
  location : String
  date : String
  time : String
  mode : String
  audience : String
  organizer : String
  agenda : List String
  tags : List String
deriving Repr, DecidableEq

/-- The required-string-field check of the Event pre-save hook: fail if
the value trims to empty, otherwise store the trimmed value. -/
def checkRequired (name value : String) : Except String String :=
  if (trimJS value).length = 0 then
    Except.error ("Field \"" ++ name ++ "\" is required and must be a non-empty string.")
  else Except.ok (trimJS value)

/-- The Event pre-save hook of `event.model.ts`: check and trim the
required string fields (in source order), trim `agenda` and `tags`
items, normalize `date` to `YYYY-MM-DD`, validate `time` against the
24-hour pattern, and regenerate `slug` from `title` when the title was
modified in this operation (`this.isModified('title')`, the
`titleModified` argument) or the slug is unset. -/
def eventPreSave (doc : EventDoc) (titleModified : Bool) : Except String EventDoc := do
  let title ← checkRequired "title" doc.title
  let description ← checkRequired "description" doc.description
  let overview ← checkRequired "overview" doc.overview
  let image ← checkRequired "image" doc.image
  let venue ← checkRequired "venue" doc.venue
  let location ← checkRequired "location" doc.location
  let date ← checkRequired "date" doc.date
  let time ← checkRequired "time" doc.time
  let mode ← checkRequired "mode" doc.mode
  let audience ← checkRequired "audience" doc.audience
  let organizer ← checkRequired "organizer" doc.organizer
  let agenda := doc.agenda.map trimJS
  let tags := doc.tags.map trimJS
  let ymd ← match jsParseDate date with
    | none => Except.error "Invalid date format. Expected a parsable date string."
    | some ymd => Except.ok ymd
  let dateStr := renderDate ymd.1 ymd.2.1 ymd.2.2
  let hm ← match timeMatch (trimJS time) with
    | none => Except.error "Invalid time format. Expected HH:MM in 24-hour format."
    | some hm => Except.ok hm
  let timeStr := hm.1 ++ ":" ++ hm.2
  let slug := if titleModified || doc.slug = "" then generateSlug title else doc.slug
  Except.ok { title := title, slug := slug, description := description,
              overview := overview, image := image, venue := venue,
              location := location, date := dateStr, time := timeStr,
              mode := mode, audience := audience, organizer := organizer,
              agenda := agenda, tags := tags }

/-- A fully valid sample document used by the concrete test cases. -/
def sampleDoc : EventDoc :=
  { title := "  Tech Meetup 2024!! ", slug := "", description := "d",
    overview := "o", image := "i", venue := "v", location := "l",
    date := "2024-03-05T10:00:00Z", time := "09:05", mode := "m",
    audience := "a", organizer := "org", agenda := ["x"], tags := ["y"] }

/-- The document `sampleDoc` as stored by the pre-save hook. -/
def sampleSaved : EventDoc :=
  { title := "Tech Meetup 2024!!", slug := "tech-meetup-2024",
    description := "d", overview := "o", image := "i", venue := "v",
    location := "l", date := "2024-03-05", time := "09:05", mode := "m",
    audience := "a", organizer := "org", agenda := ["x"], tags := ["y"] }

/-- A document whose title is non-empty after trimming but consists
only of characters removed by the slug filter. -/
def bangDoc : EventDoc :=
  { sampleDoc with title := "!!!" }

/-- The document `bangDoc` as stored by the pre-save hook: the
required-field check accepted the title, yet the stored slug is the
empty string. -/
def bangSaved : EventDoc :=
  { sampleSaved with title := "!!!", slug := "" }

/-- The whole-string test of `EMAIL_REGEX` = anchored
`[^\s@]+@[^\s@]+\.[^\s@]+`: the string splits as `a@b.c` with `a`, `b`,
`c` non-empty and free of whitespace and `@` (so exactly one `@`, and a
dot strictly inside the part after it).  Implemented structurally:
exactly one `@`, no `\s`, non-empty local part, and a `.` in the
interior of the domain part. -/
def emailMatch (s : String) : Bool :=
  match s.data.splitOn '@' with
  | [local_, domain] =>
    (!local_.isEmpty) && local_.all (fun c => !jsWhitespace c) &&
    (!domain.isEmpty) && domain.all (fun c => !jsWhitespace c) &&
    ((domain.drop 1).dropLast.contains '.')
  | _ => false

/-- The Booking document shape of `booking.model.ts`.  The referenced
Event identity (`ObjectId`) is modelled as a `Nat`; `none` models an
unset `eventId` (the falsiness test `!this.eventId`). -/
structure BookingDoc where
  eventId : Option Nat
  email : String
deriving Repr, DecidableEq

/-- The schema-level setters on `email` (`lowercase: true, trim: true`),
applied by the persistence layer before the pre-save hook runs. -/
def bookingApplySetters (b : BookingDoc) : BookingDoc :=
  { b with email := trimJS ⟨b.email.data.map asciiLower⟩ }

/-- The Booking pre-save hook of `booking.model.ts`: re-validate the
email, require `eventId`, and check `Event.exists({ _id: this.eventId })`
against the Event store, modelled as the list `events` of existing Event
identities. -/
def bookingPreSave (events : List Nat) (b : BookingDoc) : Except String BookingDoc :=
  if b.email = "" ∨ emailMatch b.email = false then
    Except.error "Email must be a valid, non-empty email address."
  else match b.eventId with
    | none => Except.error "eventId is required."
    | some id =>
      if events.contains id then Except.ok b
      else Except.error "Referenced event does not exist."

/-- Saving a Booking: the schema setters normalize `email`, then the
pre-save hook validates. -/
def bookingSave (events : List Nat) (b : BookingDoc) : Except String BookingDoc :=
  bookingPreSave events (bookingApplySetters b)

/-- The module-level mongoose connection cache of `mongodb.ts`:
`conn` caches a resolved handle, `promise` caches the in-flight (here:
settled) connection attempt.  The handle type `H` and error type `E`
are parameters. -/
structure MongooseCache (H E : Type) where
  conn : Option H
  promise : Option (Except E H)
deriving Repr

/-- One call of `connectDB` from `mongodb.ts`, modelled sequentially:
`attempt` is the settled outcome the underlying `mongoose.connect`
promise would have if a fresh connection were initiated on this call.
Returns the updated cache and the call's outcome: a cached `conn` is
returned as-is; otherwise the cached promise (or a fresh attempt) is
awaited; on rejection `cached.promise` is reset to `none` and the error
is rethrown; on success the handle is cached in `conn`. -/
def connectDB {H E : Type} (cached : MongooseCache H E) (attempt : Except E H) :
    MongooseCache H E × Except E H :=
  match cached.conn with
  | some c => (cached, Except.ok c)
  | none =>
    let p := match cached.promise with
      | some p => p
      | none => attempt
    match p with
    | Except.ok m => ({ conn := some m, promise := some (Except.ok m) }, Except.ok m)
    | Except.error e => ({ conn := cached.conn, promise := none }, Except.error e)

/-- Characters that can appear in a generated slug: ASCII lower-case
letters, digits, and the hyphen. -/
def isSlugChar (c : Char) : Bool :=
  isAsciiLowerCh c || isDigitCh c || c = '-'

/-- `true` when the list contains no two adjacent hyphens. -/
def noAdjHyphen : List Char → Bool
  | [] => true
  | [_] => true
  | c1 :: c2 :: rest => !(c1 = '-' && c2 = '-') && noAdjHyphen (c2 :: rest)

/-- The character class kept according to the spec's wording for slug
generation: "non-alphanumeric/non-space/non-hyphen characters removed",
i.e. ASCII alphanumerics (either case), whitespace, and the hyphen are
kept. -/
def specKeep (c : Char) : Bool :=
  isAsciiLowerCh c || isAsciiUpperCh c || isDigitCh c || jsWhitespace c || c = '-'

/-- Slug generation as worded by the spec: the title trimmed of
leading/trailing whitespace, lowercased, with
non-alphanumeric/non-space/non-hyphen characters removed, internal
whitespace runs collapsed to a single hyphen, and repeated hyphens
collapsed to one. -/
def slugSpec (title : String) : String :=
  ⟨collapseHyphens (wsRunsToHyphen
    (((trimList title.data).map asciiLower).filter specKeep))⟩

/-! ## Helper lemmas: characters -/

theorem toNat_ofNat_of_lt (n : Nat) (h : n < 55296) : (Char.ofNat n).toNat = n := by
  have hv : n.isValidChar := Or.inl h
  rw [Char.ofNat, dif_pos hv]
  simp [Char.ofNatAux, Char.toNat]
  rfl

theorem char_eq_iff_toNat (c d : Char) : c = d ↔ c.toNat = d.toNat := by
  constructor
  · intro h; rw [h]
  · intro h
    have h1 := Char.ofNat_toNat c
    have h2 := Char.ofNat_toNat d
    rw [← h1, ← h2, h]

theorem hyphen_toNat : ('-' : Char).toNat = 45 := rfl

theorem isSlugChar_not_ws {c : Char} (h : isSlugChar c = true) :
    jsWhitespace c = false := by
  simp only [isSlugChar, isAsciiLowerCh, isDigitCh, Bool.or_eq_true,
    decide_eq_true_eq, Bool.and_eq_true, char_eq_iff_toNat, hyphen_toNat] at h
  simp only [jsWhitespace, Bool.or_eq_false_iff, Bool.and_eq_false_iff,
    decide_eq_false_iff_not, Bool.not_eq_true, decide_eq_true_eq]
  omega

theorem isSlugChar_asciiLower {c : Char} (h : isSlugChar c = true) :
    asciiLower c = c := by
  simp only [isSlugChar, isAsciiLowerCh, isDigitCh, Bool.or_eq_true,
    decide_eq_true_eq, Bool.and_eq_true, char_eq_iff_toNat, hyphen_toNat] at h
  rw [asciiLower, if_neg]
  omega

theorem isSlugChar_codeKeep {c : Char} (h : isSlugChar c = true) :
    codeKeep c = true := by
  simp only [isSlugChar, Bool.or_eq_true] at h
  simp only [codeKeep, Bool.or_eq_true]
  tauto

theorem codeKeep_not_ws_slug {c : Char} (hk : codeKeep c = true)
    (hw : jsWhitespace c = false) : isSlugChar c = true := by
  simp only [codeKeep, Bool.or_eq_true, hw] at hk
  simp only [isSlugChar, Bool.or_eq_true]
  tauto

theorem specKeep_asciiLower (c : Char) :
    specKeep (asciiLower c) = codeKeep (asciiLower c) := by
  by_cases h : 65 ≤ c.toNat ∧ c.toNat ≤ 90
  · have hval : (asciiLower c).toNat = c.toNat + 32 := by
      rw [asciiLower, if_pos h]
      exact toNat_ofNat_of_lt _ (by omega)
    simp only [specKeep, codeKeep, isAsciiLowerCh, isAsciiUpperCh, isDigitCh, hval]
    have h1 : decide (97 ≤ c.toNat + 32) = true := by simp; omega
    have h2 : decide (c.toNat + 32 ≤ 122) = true := by simp; omega
    rw [h1, h2]
    simp
  · have hval : asciiLower c = c := by rw [asciiLower, if_neg h]
    rw [hval]
    simp only [specKeep, codeKeep, isAsciiUpperCh]
    have hU : (decide (65 ≤ c.toNat) && decide (c.toNat ≤ 90)) = false := by
      simp only [Bool.and_eq_false_iff, decide_eq_false_iff_not]
      omega
    rw [hU]
    simp

/-! ## Helper lemmas: trimming -/

theorem dropWhile_eq_self_of_none {α : Type} (p : α → Bool) (l : List α)
    (h : ∀ c ∈ l, p c = false) : l.dropWhile p = l := by
  cases l with
  | nil => rfl
  | cons a t => exact List.dropWhile_cons_of_neg (by simp [h a (by simp)])

theorem trimList_eq_self_of_no_ws {l : List Char}
    (h : ∀ c ∈ l, jsWhitespace c = false) : trimList l = l := by
  rw [trimList, dropWhile_eq_self_of_none _ _ h,
    dropWhile_eq_self_of_none _ _ (by intro c hc; exact h c (List.mem_reverse.mp hc)),
    List.reverse_reverse]

theorem trimList_eq_rdropWhile (l : List Char) :
    trimList l = List.rdropWhile jsWhitespace (l.dropWhile jsWhitespace) := rfl

theorem trimList_idem (l : List Char) : trimList (trimList l) = trimList l := by
  rw [trimList_eq_rdropWhile, trimList_eq_rdropWhile]
  have hdrop : List.dropWhile jsWhitespace
      (List.rdropWhile jsWhitespace (List.dropWhile jsWhitespace l))
      = List.rdropWhile jsWhitespace (List.dropWhile jsWhitespace l) := by
    cases h : List.rdropWhile jsWhitespace (List.dropWhile jsWhitespace l) with
    | nil => rfl
    | cons a t =>
      apply List.dropWhile_cons_of_neg
      obtain ⟨s, hs⟩ :=
        List.rdropWhile_prefix jsWhitespace (List.dropWhile jsWhitespace l)
      rw [h] at hs
      have hh := List.head?_dropWhile_not jsWhitespace l
      rw [← hs] at hh
      simpa using hh
  rw [hdrop, List.rdropWhile_idempotent]

theorem trimJS_idem (s : String) : trimJS (trimJS s) = trimJS s := by
  simp [trimJS, trimList_idem]

/-! ## Helper lemmas: whitespace runs and hyphen collapsing -/

theorem wsRunsToHyphen_all_slug {l : List Char}
    (h : ∀ c ∈ l, codeKeep c = true) :
    ∀ c ∈ wsRunsToHyphen l, isSlugChar c = true := by
  induction l with
  | nil => intro c hc; simp [wsRunsToHyphen] at hc
  | cons a t ih =>
    cases t with
    | nil =>
      intro c hc
      rw [wsRunsToHyphen] at hc
      by_cases hw : jsWhitespace a = true
      · rw [if_pos hw] at hc
        simp at hc
        rw [hc]; decide
      · rw [if_neg hw] at hc
        simp at hc
        rw [hc]
        exact codeKeep_not_ws_slug (h a (by simp)) (by simpa using hw)
    | cons b r =>
      intro c hc
      have ht : ∀ x ∈ b :: r, codeKeep x = true := by
        intro x hx; exact h x (by simp [hx])
      rw [wsRunsToHyphen] at hc
      by_cases hw : jsWhitespace a = true
      · rw [if_pos hw] at hc
        by_cases hw2 : jsWhitespace b = true
        · rw [if_pos hw2] at hc
          exact ih ht c hc
        · rw [if_neg hw2] at hc
          rcases List.mem_cons.mp hc with hc1 | hc2
          · rw [hc1]; decide
          · exact ih ht c hc2
      · rw [if_neg hw] at hc
        rcases List.mem_cons.mp hc with hc1 | hc2
        · rw [hc1]
          exact codeKeep_not_ws_slug (h a (by simp)) (by simpa using hw)
        · exact ih ht c hc2

theorem wsRunsToHyphen_eq_self {l : List Char}
    (h : ∀ c ∈ l, jsWhitespace c = false) : wsRunsToHyphen l = l := by
  induction l with
  | nil => rfl
  | cons a t ih =>
    cases t with
    | nil =>
      rw [wsRunsToHyphen, if_neg (by simp [h a (by simp)])]
    | cons b r =>
      rw [wsRunsToHyphen, if_neg (by simp [h a (by simp)])]
      rw [ih (by intro x hx; exact h x (by simp [hx]))]

theorem collapseHyphens_all {p : Char → Bool} {l : List Char}
    (h : ∀ c ∈ l, p c = true) : ∀ c ∈ collapseHyphens l, p c = true := by
  induction l with
  | nil => intro c hc; simp [collapseHyphens] at hc
  | cons a t ih =>
    cases t with
    | nil =>
      intro c hc
      rw [collapseHyphens] at hc
      simp at hc
      rw [hc]; exact h a (by simp)
    | cons b r =>
      intro c hc
      have ht : ∀ x ∈ b :: r, p x = true := by
        intro x hx; exact h x (by simp [hx])
      rw [collapseHyphens] at hc
      by_cases hd : a = '-' ∧ b = '-'
      · rw [if_pos hd] at hc
        exact ih ht c hc
      · rw [if_neg hd] at hc
        rcases List.mem_cons.mp hc with hc1 | hc2
        · rw [hc1]; exact h a (by simp)
        · exact ih ht c hc2

theorem collapseHyphens_cons_head (a : Char) (l : List Char) :
    ∃ s, collapseHyphens (a :: l) = a :: s := by
  induction l generalizing a with
  | nil => exact ⟨[], rfl⟩
  | cons b r ih =>
    rw [collapseHyphens]
    by_cases hd : a = '-' ∧ b = '-'
    · rw [if_pos hd]
      obtain ⟨s, hs⟩ := ih b
      exact ⟨s, by rw [hs, hd.1, hd.2]⟩
    · rw [if_neg hd]
      exact ⟨collapseHyphens (b :: r), rfl⟩

theorem noAdjHyphen_collapseHyphens (l : List Char) :
    noAdjHyphen (collapseHyphens l) = true := by
  induction l with
  | nil => rfl
  | cons a t ih =>
    cases t with
    | nil => rfl
    | cons b r =>
      rw [collapseHyphens]
      by_cases hd : a = '-' ∧ b = '-'
      · rw [if_pos hd]; exact ih
      · rw [if_neg hd]
        obtain ⟨s, hs⟩ := collapseHyphens_cons_head b r
        rw [hs]
        rw [hs] at ih
        have hfalse : (decide (a = '-') && decide (b = '-')) = false := by
          simp only [Bool.and_eq_false_iff, decide_eq_false_iff_not]
          tauto
        rw [noAdjHyphen, hfalse, ih]
        rfl

theorem collapseHyphens_eq_self {l : List Char}
    (h : noAdjHyphen l = true) : collapseHyphens l = l := by
  induction l with
  | nil => rfl
  | cons a t ih =>
    cases t with
    | nil => rfl
    | cons b r =>
      rw [noAdjHyphen] at h
      have h2 := (Bool.and_eq_true _ _).mp h
      have hno : ¬(a = '-' ∧ b = '-') := by
        intro hcon
        rw [hcon.1, hcon.2] at h2
        simp at h2
      rw [collapseHyphens, if_neg hno, ih h2.2]

/-! ## Helper lemmas: slug generation -/

theorem stringMk_data (s : String) : String.mk s.data = s := by
  cases s; rfl

theorem generateSlug_data (t : String) :
    (generateSlug t).data = collapseHyphens (wsRunsToHyphen
      (((trimList t.data).map asciiLower).filter codeKeep)) := rfl

theorem generateSlug_all_slug (t : String) :
    ∀ c ∈ (generateSlug t).data, isSlugChar c = true := by
  rw [generateSlug_data]
  intro c hc
  refine collapseHyphens_all ?_ c hc
  apply wsRunsToHyphen_all_slug
  intro x hx
  exact (List.mem_filter.mp hx).2

theorem generateSlug_noAdj (t : String) :
    noAdjHyphen (generateSlug t).data = true := by
  rw [generateSlug_data]
  exact noAdjHyphen_collapseHyphens _

theorem generateSlug_of_slug_list {L : List Char}
    (hgood : ∀ c ∈ L, isSlugChar c = true) (hno : noAdjHyphen L = true) :
    generateSlug ⟨L⟩ = ⟨L⟩ := by
  have hws : ∀ c ∈ L, jsWhitespace c = false :=
    fun c hc => isSlugChar_not_ws (hgood c hc)
  have htrim : trimList L = L := trimList_eq_self_of_no_ws hws
  have hmap : L.map asciiLower = L := by
    conv_rhs => rw [← List.map_id L]
    exact List.map_congr_left (fun c hc => isSlugChar_asciiLower (hgood c hc))
  have hfilter : L.filter codeKeep = L :=
    List.filter_eq_self.mpr (fun c hc => isSlugChar_codeKeep (hgood c hc))
  have hruns : wsRunsToHyphen L = L := wsRunsToHyphen_eq_self hws
  have hcol : collapseHyphens L = L := collapseHyphens_eq_self hno
  show (⟨collapseHyphens (wsRunsToHyphen
    (((trimList L).map asciiLower).filter codeKeep))⟩ : String) = ⟨L⟩
  rw [htrim, hmap, hfilter, hruns, hcol]

theorem generateSlug_idem_aux (t : String) :
    generateSlug (generateSlug t) = generateSlug t := by
  have h := generateSlug_of_slug_list (generateSlug_all_slug t) (generateSlug_noAdj t)
  rwa [stringMk_data] at h

theorem generateSlug_eq_slugSpec (t : String) : generateSlug t = slugSpec t := by
  have hfilters : ((trimList t.data).map asciiLower).filter codeKeep
      = ((trimList t.data).map asciiLower).filter specKeep := by
    apply List.filter_congr
    intro c hc
    obtain ⟨a, _, rfl⟩ := List.mem_map.mp hc
    exact (specKeep_asciiLower a).symm
  show (⟨collapseHyphens (wsRunsToHyphen
    (((trimList t.data).map asciiLower).filter codeKeep))⟩ : String)
    = ⟨collapseHyphens (wsRunsToHyphen
    (((trimList t.data).map asciiLower).filter specKeep))⟩
  rw [hfilters]

/-! ## Helper lemmas: the Event pre-save hook -/

theorem checkRequired_ok {n v w : String} (h : checkRequired n v = Except.ok w) :
    (trimJS v).length ≠ 0 ∧ w = trimJS v := by
  rw [checkRequired] at h
  split at h
  · cases h
  · exact ⟨by assumption, (Except.ok.injEq _ _).mp h.symm⟩

theorem eventPreSave_ok_spec {doc : EventDoc} {tm : Bool} {d' : EventDoc}
    (h : eventPreSave doc tm = Except.ok d') :
    ∃ ymd hm,
      jsParseDate (trimJS doc.date) = some ymd ∧
      timeMatch (trimJS (trimJS doc.time)) = some hm ∧
      d' = { title := trimJS doc.title,
             slug := if tm || doc.slug = "" then generateSlug (trimJS doc.title)
                     else doc.slug,
             description := trimJS doc.description,
             overview := trimJS doc.overview,
             image := trimJS doc.image,
             venue := trimJS doc.venue,
             location := trimJS doc.location,
             date := renderDate ymd.1 ymd.2.1 ymd.2.2,
             time := hm.1 ++ ":" ++ hm.2,
             mode := trimJS doc.mode,
             audience := trimJS doc.audience,
             organizer := trimJS doc.organizer,
             agenda := doc.agenda.map trimJS,
             tags := doc.tags.map trimJS } := by
  simp only [eventPreSave, bind, Except.bind] at h
  split at h
  · exact absurd h (by simp)
  rename_i x1 hx1
  obtain ⟨ht1, rfl⟩ := checkRequired_ok hx1
  split at h
  · exact absurd h (by simp)
  rename_i x2 hx2
  obtain ⟨ht2, rfl⟩ := checkRequired_ok hx2
  split at h
  · exact absurd h (by simp)
  rename_i x3 hx3
  obtain ⟨ht3, rfl⟩ := checkRequired_ok hx3
  split at h
  · exact absurd h (by simp)
  rename_i x4 hx4
  obtain ⟨ht4, rfl⟩ := checkRequired_ok hx4
  split at h
  · exact absurd h (by simp)
  rename_i x5 hx5
  obtain ⟨ht5, rfl⟩ := checkRequired_ok hx5
  split at h
  · exact absurd h (by simp)
  rename_i x6 hx6
  obtain ⟨ht6, rfl⟩ := checkRequired_ok hx6
  split at h
  · exact absurd h (by simp)
  rename_i x7 hx7
  obtain ⟨ht7, rfl⟩ := checkRequired_ok hx7
  split at h
  · exact absurd h (by simp)
  rename_i x8 hx8
  obtain ⟨ht8, rfl⟩ := checkRequired_ok hx8
  split at h
  · exact absurd h (by simp)
  rename_i x9 hx9
  obtain ⟨ht9, rfl⟩ := checkRequired_ok hx9
  split at h
  · exact absurd h (by simp)
  rename_i x10 hx10
  obtain ⟨ht10, rfl⟩ := checkRequired_ok hx10
  split at h
  · exact absurd h (by simp)
  rename_i x11 hx11
  obtain ⟨ht11, rfl⟩ := checkRequired_ok hx11
  split at h
  · exact absurd h (by simp)
  rename_i ymd hymd
  split at h
  · exact absurd h (by simp)
  rename_i hm hhm
  simp only [Except.ok.injEq] at h
  exact ⟨ymd, hm, hymd, hhm, h.symm⟩

theorem eventPreSave_error_of_bad_date {doc : EventDoc} {tm : Bool}
    (hd : jsParseDate (trimJS doc.date) = none) :
    ∃ e, eventPreSave doc tm = Except.error e := by
  cases h : eventPreSave doc tm with
  | error e => exact ⟨e, rfl⟩
  | ok d' =>
    obtain ⟨ymd, hm, hymd, -, -⟩ := eventPreSave_ok_spec h
    rw [hd] at hymd
    cases hymd

theorem eventPreSave_error_of_bad_time {doc : EventDoc} {tm : Bool}
    (ht : timeMatch (trimJS (trimJS doc.time)) = none) :
    ∃ e, eventPreSave doc tm = Except.error e := by
  cases h : eventPreSave doc tm with
  | error e => exact ⟨e, rfl⟩
  | ok d' =>
    obtain ⟨ymd, hm, -, hhm, -⟩ := eventPreSave_ok_spec h
    rw [ht] at hhm
    cases hhm

theorem checkRequired_error {n v e : String} (h : checkRequired n v = Except.error e) :
    e = "Field \"" ++ n ++ "\" is required and must be a non-empty string." := by
  rw [checkRequired] at h
  split at h
  · exact ((Except.error.injEq _ _).mp h).symm
  · cases h

theorem eventPreSave_time_error_spec {doc : EventDoc} {tm : Bool}
    (h : eventPreSave doc tm
      = Except.error "Invalid time format. Expected HH:MM in 24-hour format.") :
    timeMatch (trimJS (trimJS doc.time)) = none := by
  simp only [eventPreSave, bind, Except.bind] at h
  split at h
  · rename_i err heq
    simp only [Except.error.injEq] at h
    rw [checkRequired_error heq] at h
    exact absurd h (by decide)
  rename_i v1 hv1
  obtain ⟨-, rfl⟩ := checkRequired_ok hv1
  split at h
  · rename_i err heq
    simp only [Except.error.injEq] at h
    rw [checkRequired_error heq] at h
    exact absurd h (by decide)
  rename_i v2 hv2
  obtain ⟨-, rfl⟩ := checkRequired_ok hv2
  split at h
  · rename_i err heq
    simp only [Except.error.injEq] at h
    rw [checkRequired_error heq] at h
    exact absurd h (by decide)
  rename_i v3 hv3
  obtain ⟨-, rfl⟩ := checkRequired_ok hv3
  split at h
  · rename_i err heq
    simp only [Except.error.injEq] at h
    rw [checkRequired_error heq] at h
    exact absurd h (by decide)
  rename_i v4 hv4
  obtain ⟨-, rfl⟩ := checkRequired_ok hv4
  split at h
  · rename_i err heq
    simp only [Except.error.injEq] at h
    rw [checkRequired_error heq] at h
    exact absurd h (by decide)
  rename_i v5 hv5
  obtain ⟨-, rfl⟩ := checkRequired_ok hv5
  split at h
  · rename_i err heq
    simp only [Except.error.injEq] at h
    rw [checkRequired_error heq] at h
    exact absurd h (by decide)
  rename_i v6 hv6
  obtain ⟨-, rfl⟩ := checkRequired_ok hv6
  split at h
  · rename_i err heq
    simp only [Except.error.injEq] at h
    rw [checkRequired_error heq] at h
    exact absurd h (by decide)
  rename_i v7 hv7
  obtain ⟨-, rfl⟩ := checkRequired_ok hv7
  split at h
  · rename_i err heq
    simp only [Except.error.injEq] at h
    rw [checkRequired_error heq] at h
    exact absurd h (by decide)
  rename_i v8 hv8
  obtain ⟨-, rfl⟩ := checkRequired_ok hv8
  split at h
  · rename_i err heq
    simp only [Except.error.injEq] at h
    rw [checkRequired_error heq] at h
    exact absurd h (by decide)
  rename_i v9 hv9
  obtain ⟨-, rfl⟩ := checkRequired_ok hv9
  split at h
  · rename_i err heq
    simp only [Except.error.injEq] at h
    rw [checkRequired_error heq] at h
    exact absurd h (by decide)
  rename_i v10 hv10
  obtain ⟨-, rfl⟩ := checkRequired_ok hv10
  split at h
  · rename_i err heq
    simp only [Except.error.injEq] at h
    rw [checkRequired_error heq] at h
    exact absurd h (by decide)
  rename_i v11 hv11
  obtain ⟨-, rfl⟩ := checkRequired_ok hv11
  split at h
  · simp only [Except.error.injEq] at h
    exact absurd h (by decide)
  split at h
  · assumption
  · cases h

/-! ## Helper lemmas: date rendering and time round-trip -/

theorem isDigitCh_digitChar10 (n : Nat) : isDigitCh (digitChar10 n) = true := by
  have h : (digitChar10 n).toNat = 48 + n % 10 := toNat_ofNat_of_lt _ (by omega)
  simp only [isDigitCh, h, Bool.and_eq_true, decide_eq_true_eq]
  omega

theorem renderDate_length (y m d : Nat) : (renderDate y m d).length = 10 := rfl

theorem renderDate_shape (y m d : Nat) :
    isISODateShape (renderDate y m d) = true := by
  simp [isISODateShape, renderDate, isDigitCh_digitChar10]

theorem string_mk_append (a b : List Char) :
    String.mk a ++ String.mk b = String.mk (a ++ b) := rfl

theorem timeMatch_eq_self {s : String} {hm : String × String}
    (h : timeMatch s = some hm) : hm.1 ++ ":" ++ hm.2 = s := by
  rw [timeMatch] at h
  split at h
  · rename_i h1 h2 sep m1 m2 heq
    split at h
    · rename_i hcond
      obtain ⟨rfl, -⟩ := hcond
      simp only [Option.some.injEq] at h
      subst h
      rw [← stringMk_data s, heq]
      rfl
    · cases h
  · cases h

theorem generateSlug_trimJS (s : String) :
    generateSlug (trimJS s) = generateSlug s := by
  show (⟨collapseHyphens (wsRunsToHyphen
    (((trimList (trimList s.data)).map asciiLower).filter codeKeep))⟩ : String)
    = generateSlug s
  rw [trimList_idem]
  rfl

/-! ## Claims -/

/-- Claim C1: for every title string, the slug computed by the Event
store's pre-persist procedure equals the title trimmed of
leading/trailing whitespace, lowercased, with
non-alphanumeric/non-space/non-hyphen characters removed, internal
whitespace runs collapsed to a single hyphen, and repeated hyphens
collapsed to one (`slugSpec`); in particular the title
`"  Tech Meetup 2024!! "` yields the slug `"tech-meetup-2024"`. -/
theorem claim_C1 :
    (∀ t : String, generateSlug t = slugSpec t) ∧
    (∀ (doc d' : EventDoc), eventPreSave doc true = Except.ok d' →
      d'.slug = slugSpec doc.title) ∧
    generateSlug "  Tech Meetup 2024!! " = "tech-meetup-2024" := by
  refine ⟨generateSlug_eq_slugSpec, ?_, by decide⟩
  intro doc d' h
  obtain ⟨ymd, hm, -, -, rfl⟩ := eventPreSave_ok_spec h
  show (if (true || decide (doc.slug = "")) = true
        then generateSlug (trimJS doc.title) else doc.slug) = slugSpec doc.title
  rw [if_pos (by simp), generateSlug_trimJS, generateSlug_eq_slugSpec]

/-- Claim C6: slug generation is idempotent: applying `generateSlug` to
its own output yields the same string. -/
theorem claim_C6 :
    ∀ t : String, generateSlug (generateSlug t) = generateSlug t :=
  generateSlug_idem_aux

/-- Claim C9: for the title `"!!!"`, which is non-empty after trimming,
the pre-save required-field check accepts the document, yet the stored
slug is the empty string. -/
theorem claim_C9 :
    trimJS "!!!" ≠ "" ∧ bangDoc.title = "!!!" ∧
    eventPreSave bangDoc true = Except.ok bangSaved ∧ bangSaved.slug = "" :=
  ⟨by decide, rfl, by rfl, rfl⟩

/-- Claim C7: the Event pre-save hook recomputes `slug` exactly when the
title was modified in the operation or the slug is unset; when the title
is unmodified and a slug is present, the slug is left unchanged. -/
theorem claim_C7 :
    ∀ (doc : EventDoc) (tm : Bool) (d' : EventDoc),
      eventPreSave doc tm = Except.ok d' →
      ((tm = true ∨ doc.slug = "") → d'.slug = generateSlug doc.title) ∧
      (tm = false → doc.slug ≠ "" → d'.slug = doc.slug) := by
  intro doc tm d' h
  obtain ⟨ymd, hm, -, -, rfl⟩ := eventPreSave_ok_spec h
  constructor
  · intro hrec
    have hcond : (tm || decide (doc.slug = "")) = true := by
      rcases hrec with h1 | h1
      · simp [h1]
      · simp [h1]
    show (if (tm || decide (doc.slug = "")) = true
          then generateSlug (trimJS doc.title) else doc.slug) = generateSlug doc.title
    rw [if_pos hcond, generateSlug_trimJS]
  · intro htm hslug
    have hcond : (tm || decide (doc.slug = "")) = false := by
      simp [htm, hslug]
    show (if (tm || decide (doc.slug = "")) = true
          then generateSlug (trimJS doc.title) else doc.slug) = doc.slug
    rw [if_neg (by simp [hcond])]

/-- Claim C2: if the date attribute is unparseable as a calendar date
the Event pre-save hook fails; on success the stored date is exactly 10
characters of shape `YYYY-MM-DD`; in particular the input
`"2024-03-05T10:00:00Z"` is stored as `"2024-03-05"`. -/
theorem claim_C2 :
    (∀ (doc : EventDoc) (tm : Bool),
      jsParseDate (trimJS doc.date) = none →
      ∃ e, eventPreSave doc tm = Except.error e) ∧
    (∀ (doc : EventDoc) (tm : Bool) (d' : EventDoc),
      eventPreSave doc tm = Except.ok d' →
      (jsParseDate (trimJS doc.date)).isSome = true ∧
      d'.date.length = 10 ∧ isISODateShape d'.date = true) ∧
    (eventPreSave sampleDoc true = Except.ok sampleSaved ∧
      sampleDoc.date = "2024-03-05T10:00:00Z" ∧ sampleSaved.date = "2024-03-05") := by
  refine ⟨fun doc tm hd => eventPreSave_error_of_bad_date hd, ?_, by rfl, rfl, rfl⟩
  intro doc tm d' h
  obtain ⟨ymd, hm, hymd, -, rfl⟩ := eventPreSave_ok_spec h
  refine ⟨by rw [hymd]; rfl, ?_, ?_⟩
  · exact renderDate_length ymd.1 ymd.2.1 ymd.2.2
  · exact renderDate_shape ymd.1 ymd.2.1 ymd.2.2

/-- Claim C3: the Event pre-save hook fails with the time validation
error exactly when the trimmed time attribute does not match the
24-hour pattern `([01]\d|2[0-3]):([0-5]\d)` (anchored); on success the
stored time matches the pattern; in particular `"9:5"` is rejected and
`"09:05"` is stored as `"09:05"`. -/
theorem claim_C3 :
    (∀ (doc : EventDoc) (tm : Bool) (d' : EventDoc),
      eventPreSave doc tm = Except.ok d' →
      (timeMatch (trimJS doc.time)).isSome = true ∧
      (timeMatch d'.time).isSome = true) ∧
    (∀ (doc : EventDoc) (tm : Bool),
      timeMatch (trimJS doc.time) = none →
      ∃ e, eventPreSave doc tm = Except.error e) ∧
    (∀ (doc : EventDoc) (tm : Bool),
      eventPreSave doc tm
        = Except.error "Invalid time format. Expected HH:MM in 24-hour format." →
      timeMatch (trimJS doc.time) = none) ∧
    (eventPreSave { sampleDoc with time := "9:5" } true
      = Except.error "Invalid time format. Expected HH:MM in 24-hour format.") ∧
    (eventPreSave sampleDoc true = Except.ok sampleSaved ∧
      sampleSaved.time = "09:05") := by
  refine ⟨?_, ?_, ?_, by rfl, by rfl, rfl⟩
  · intro doc tm d' h
    obtain ⟨ymd, hm, -, hhm, rfl⟩ := eventPreSave_ok_spec h
    rw [trimJS_idem] at hhm
    refine ⟨by rw [hhm]; rfl, ?_⟩
    show (timeMatch (hm.1 ++ ":" ++ hm.2)).isSome = true
    rw [timeMatch_eq_self hhm, hhm]
    rfl
  · intro doc tm ht
    refine eventPreSave_error_of_bad_time ?_
    rwa [trimJS_idem]
  · intro doc tm h
    have := eventPreSave_time_error_spec h
    rwa [trimJS_idem] at this

/-- Claim C10: time normalization is the identity on valid input: the
stored time is character-for-character the trimmed input (`"9:05"` is
rejected, never padded). -/
theorem claim_C10 :
    (∀ (s : String) (hm : String × String),
      timeMatch s = some hm → hm.1 ++ ":" ++ hm.2 = s) ∧
    (∀ (doc : EventDoc) (tm : Bool) (d' : EventDoc),
      eventPreSave doc tm = Except.ok d' → d'.time = trimJS doc.time) ∧
    timeMatch "9:05" = none := by
  refine ⟨fun s hm h => timeMatch_eq_self h, ?_, by decide⟩
  intro doc tm d' h
  obtain ⟨ymd, hm, -, hhm, rfl⟩ := eventPreSave_ok_spec h
  rw [trimJS_idem] at hhm
  show hm.1 ++ ":" ++ hm.2 = trimJS doc.time
  exact timeMatch_eq_self hhm

/-- Claim C4: the Booking pre-save hook checks existence of the
referenced Event in the Event store and fails when no such Event
exists; when it exists (and the email is valid) the save succeeds. -/
theorem claim_C4 :
    (∀ (events : List Nat) (b : BookingDoc) (id : Nat),
      b.eventId = some id →
      emailMatch (bookingApplySetters b).email = true →
      events.contains id = false →
      bookingSave events b = Except.error "Referenced event does not exist.") ∧
    (∀ (events : List Nat) (b : BookingDoc) (id : Nat),
      b.eventId = some id →
      emailMatch (bookingApplySetters b).email = true →
      events.contains id = true →
      bookingSave events b = Except.ok (bookingApplySetters b)) := by
  have hne : ∀ b : BookingDoc, emailMatch (bookingApplySetters b).email = true →
      ¬((bookingApplySetters b).email = "" ∨
        emailMatch (bookingApplySetters b).email = false) := by
    intro b hemail hcon
    rcases hcon with hcon | hcon
    · rw [hcon] at hemail
      exact absurd hemail (by decide)
    · rw [hcon] at hemail
      cases hemail
  have hid : ∀ (b : BookingDoc) (id : Nat), b.eventId = some id →
      (bookingApplySetters b).eventId = some id := fun b id h => h
  constructor
  · intro events b id hb hemail hc
    rw [bookingSave, bookingPreSave, if_neg (hne b hemail), hid b id hb]
    show (if events.contains id = true then Except.ok (bookingApplySetters b)
          else Except.error "Referenced event does not exist.")
      = Except.error "Referenced event does not exist."
    rw [hc]
    simp
  · intro events b id hb hemail hc
    rw [bookingSave, bookingPreSave, if_neg (hne b hemail), hid b id hb]
    show (if events.contains id = true then Except.ok (bookingApplySetters b)
          else Except.error "Referenced event does not exist.")
      = Except.ok (bookingApplySetters b)
    rw [hc]
    simp

/-- Claim C5: when the underlying connection attempt rejects,
`connectDB` fails and clears the cached in-flight attempt, so a
subsequent call initiates a fresh connection attempt (and succeeds if
that fresh attempt does) instead of returning the failed cached one. -/
theorem claim_C5 (H E : Type) (e : E) (hdl : H) :
    connectDB (⟨none, none⟩ : MongooseCache H E) (Except.error e)
      = (⟨none, none⟩, Except.error e) ∧
    (connectDB ((connectDB (⟨none, none⟩ : MongooseCache H E)
        (Except.error e)).1) (Except.ok hdl)).2 = Except.ok hdl :=
  ⟨rfl, rfl⟩

/-- Claim C8: a Booking save fails when the email is absent or does not
match the email pattern; otherwise the stored email is the lowercased
and trimmed input. -/
theorem claim_C8 :
    (∀ (events : List Nat) (b : BookingDoc),
      emailMatch (bookingApplySetters b).email = false →
      bookingSave events b
        = Except.error "Email must be a valid, non-empty email address.") ∧
    (∀ (events : List Nat) (b b' : BookingDoc),
      bookingSave events b = Except.ok b' →
      b' = bookingApplySetters b ∧
      b'.email = trimJS ⟨b.email.data.map asciiLower⟩ ∧
      emailMatch b'.email = true) := by
  constructor
  · intro events b hemail
    rw [bookingSave, bookingPreSave, if_pos (Or.inr hemail)]
  · intro events b b' h
    rw [bookingSave, bookingPreSave] at h
    split at h
    · cases h
    · rename_i hcond
      split at h
      · cases h
      · split at h
        · obtain rfl := (Except.ok.injEq _ _).mp h
          refine ⟨rfl, rfl, ?_⟩
          rcases not_or.mp hcond with ⟨-, h2⟩
          simpa using h2
        · cases h

/-! ## Witnesses -/

/-- Witness for C1 at the spec's example title and at `sampleDoc`. -/
theorem claim_C1_witness :
    generateSlug "  Tech Meetup 2024!! " = slugSpec "  Tech Meetup 2024!! " ∧
    sampleSaved.slug = slugSpec sampleDoc.title :=
  ⟨claim_C1.1 "  Tech Meetup 2024!! ",
   claim_C1.2.1 sampleDoc sampleSaved (by rfl)⟩

/-- Witness for C2 at a concrete unparseable date and at `sampleDoc`. -/
theorem claim_C2_witness :
    (∃ e, eventPreSave { sampleDoc with date := "not-a-date" } true
      = Except.error e) ∧
    ((jsParseDate (trimJS sampleDoc.date)).isSome = true ∧
      sampleSaved.date.length = 10 ∧ isISODateShape sampleSaved.date = true) :=
  ⟨claim_C2.1 { sampleDoc with date := "not-a-date" } true (by decide),
   claim_C2.2.1 sampleDoc true sampleSaved (by rfl)⟩

/-- Witness for C3 at `sampleDoc` and at concrete invalid times. -/
theorem claim_C3_witness :
    ((timeMatch (trimJS sampleDoc.time)).isSome = true ∧
      (timeMatch sampleSaved.time).isSome = true) ∧
    (∃ e, eventPreSave { sampleDoc with time := "25:00" } true
      = Except.error e) ∧
    timeMatch (trimJS "9:5") = none :=
  ⟨claim_C3.1 sampleDoc true sampleSaved (by rfl),
   claim_C3.2.1 { sampleDoc with time := "25:00" } true (by decide),
   claim_C3.2.2.1 { sampleDoc with time := "9:5" } true (by rfl)⟩

/-- Witness for C4 at a one-event store with a missing and an existing
reference. -/
theorem claim_C4_witness :
    bookingSave [5] { eventId := some 7, email := "a@b.co" }
      = Except.error "Referenced event does not exist." ∧
    bookingSave [5] { eventId := some 5, email := "a@b.co" }
      = Except.ok (bookingApplySetters { eventId := some 5, email := "a@b.co" }) :=
  ⟨claim_C4.1 [5] { eventId := some 7, email := "a@b.co" } 7 rfl (by decide) (by decide),
   claim_C4.2 [5] { eventId := some 5, email := "a@b.co" } 5 rfl (by decide) (by decide)⟩

/-- Witness for C7: recompute at `sampleDoc`, frame at a document with
an unmodified title and a present slug. -/
theorem claim_C7_witness :
    sampleSaved.slug = generateSlug sampleDoc.title ∧
    ({ sampleSaved with slug := "keep-me" } : EventDoc).slug
      = ({ sampleDoc with slug := "keep-me" } : EventDoc).slug :=
  ⟨(claim_C7 sampleDoc true sampleSaved (by rfl)).1 (Or.inl rfl),
   (claim_C7 { sampleDoc with slug := "keep-me" } false
      { sampleSaved with slug := "keep-me" } (by rfl)).2 rfl (by decide)⟩

/-- Witness for C8 at a concrete invalid and a concrete valid email. -/
theorem claim_C8_witness :
    bookingSave [] { eventId := some 1, email := "not-an-email" }
      = Except.error "Email must be a valid, non-empty email address." ∧
    (bookingApplySetters { eventId := some 5, email := "  A@B.Co " }
        = bookingApplySetters { eventId := some 5, email := "  A@B.Co " } ∧
      (bookingApplySetters { eventId := some 5, email := "  A@B.Co " }).email
        = trimJS ⟨("  A@B.Co " : String).data.map asciiLower⟩ ∧
      emailMatch (bookingApplySetters { eventId := some 5, email := "  A@B.Co " }).email
        = true) :=
  ⟨claim_C8.1 [] { eventId := some 1, email := "not-an-email" } (by decide),
   claim_C8.2 [5] { eventId := some 5, email := "  A@B.Co " }
     (bookingApplySetters { eventId := some 5, email := "  A@B.Co " }) (by rfl)⟩

/-- Witness for C10 at the valid time `"09:05"` and at `sampleDoc`. -/
theorem claim_C10_witness :
    ("09" : String) ++ ":" ++ "05" = "09:05" ∧
    sampleSaved.time = trimJS sampleDoc.time :=
  ⟨claim_C10.1 "09:05" ("09", "05") (by rfl),
   claim_C10.2.1 sampleDoc true sampleSaved (by rfl)⟩
